import Mathlib

/-!
Verification of the wine-deal scraper (`src/scraper.py`).

The program is embedded shallowly:

* Python strings are `List Char` (abbreviated `Str`); `str.lower`, `str.strip`,
  substring tests (`in`) and `re` patterns are executable Lean functions on
  character lists.
* Python numbers (`float`/`int`) are modelled as exact rationals `ℚ` resp.
  integers; `round` is `pyRound` (round-half-to-even, as Python's `round`).
  Binary floating-point rounding error is outside the model.
* Markup pages are modelled at exactly the interface the code consumes from
  BeautifulSoup: the text contents of the selected elements (`Option Str` for
  `select_one`, `List` for `select`).  A `none` page models a raised fetch /
  parse exception, caught by the per-site `except` clause.
* Exceptions are `Except PyErr`; an uncaught exception inside one scraper is
  caught at the scraper boundary (`except Exception`), yielding `[]`.

The `Rat` arithmetic operations are `@[irreducible]` in Batteries, which only
blocks unfolding by the elaborator; they are restored to their normal
reducibility here so that concrete runs of the embedded program can be
evaluated by `decide`.
-/

attribute [local semireducible] Rat.add Rat.sub Rat.mul Rat.inv Rat.ofScientific

/-- Python strings, as lists of characters. -/
abbrev Str := List Char

/-- Coerce a Lean string literal to the `Str` model. -/
def str (s : String) : Str := s.data

/-- The characters stripped by Python's `str.strip()` and matched by `\s`
(for the ASCII fragment relevant to this program). -/
def isPySpace (c : Char) : Bool :=
  c == ' ' || c == '\t' || c == '\n' || c == '\r' || c == '\x0b' || c == '\x0c'

/-- Python `str.lower()` (ASCII fragment). -/
def pyLower (s : Str) : Str := s.map Char.toLower

/-- Python `str.strip()`: drop leading and trailing whitespace. -/
def pyStrip (s : Str) : Str :=
  ((s.dropWhile isPySpace).reverse.dropWhile isPySpace).reverse

/-- `leadsWith needle s` is true when `needle` is an initial segment of `s`. -/
def leadsWith : Str → Str → Bool
  | [], _ => true
  | _ :: _, [] => false
  | c :: cs, d :: ds => c == d && leadsWith cs ds

/-- Python's substring test `needle in hay`. -/
def containsSub (needle : Str) : Str → Bool
  | [] => needle.isEmpty
  | c :: cs => leadsWith needle (c :: cs) || containsSub needle cs

/-- Numeric value of a digit string (Python `int(...)` on a digit string). -/
def digitsVal (s : Str) : ℕ := s.foldl (fun acc c => 10 * acc + (c.toNat - 48)) 0

/-- Take up to `n` leading characters satisfying `p`; return them and the rest.
This implements a greedy bounded character-class repetition of `re`. -/
def spanUpTo (p : Char → Bool) : ℕ → Str → Str × Str
  | 0, s => ([], s)
  | _ + 1, [] => ([], [])
  | n + 1, c :: cs =>
    if p c then
      let (t, r) := spanUpTo p n cs
      (c :: t, r)
    else ([], c :: cs)

/-- Python exceptions that the scraper can raise. -/
inductive PyErr where
  | valueError      -- e.g. `float("1.2.3")`
  | attributeError  -- e.g. `.get` on a non-dict
  deriving DecidableEq

/-- `re.sub(r"[^\d.]", "", s)`: keep only digits and decimal points. -/
def cleanNum (s : Str) : Str := s.filter (fun c => c.isDigit || c == '.')

/-- Split a string at every `'.'` (used to parse a cleaned price text). -/
def splitDots : Str → List Str
  | [] => [[]]
  | c :: cs =>
    let r := splitDots cs
    if c == '.' then [] :: r
    else
      match r with
      | h :: t => (c :: h) :: t
      | [] => [[c]]

/-- Python `float(s or 0)` applied to a string `s` containing only digits and
dots: the empty string yields `0`; more than one dot, or a lone dot, raises
`ValueError`; otherwise the exact decimal value. -/
def floatOfClean (s : Str) : Except PyErr ℚ :=
  if s = [] then Except.ok 0
  else
    match splitDots s with
    | [ip] => Except.ok (digitsVal ip : ℚ)
    | [ip, fp] =>
      if ip = [] ∧ fp = [] then Except.error PyErr.valueError
      else Except.ok ((digitsVal ip : ℚ) + (digitsVal fp : ℚ) / (10 : ℚ) ^ fp.length)
    | _ => Except.error PyErr.valueError

/-- Python's built-in `round` to an integer: round half to even. -/
def pyRound (q : ℚ) : ℤ :=
  let n := ⌊q⌋
  let r := q - (n : ℚ)
  if r < 1 / 2 then n
  else if 1 / 2 < r then n + 1
  else if n % 2 = 0 then n else n + 1

/-- One critic-score dict `{"score": ..., "source": ...}`.  The `score` field
is optional, matching `s.get("score", 0)` in `matches_preferences`; the
extractors themselves always set it. -/
structure ScoreEntry where
  score : Option ℤ
  source : Str
  deriving DecidableEq

/-- One deal dict, as built by the three scrapers. -/
structure Deal where
  name : Str
  price : ℚ
  original : ℚ
  discount : ℤ
  url : Str
  source : Str
  scores : List ScoreEntry
  deriving DecidableEq

/-- `PREFERENCES["keywords"]` (src/scraper.py lines 20-27). -/
def preferences_keywords : List Str :=
  [str "cabernet sauvignon", str "cab sav", str "cabernet",
   str "chianti", str "sangiovese",
   str "syrah", str "shiraz", str "guidalberto",
   str "zinfandel", str "zin",
   str "malbec",
   str "petite sirah"]

/-- `PREFERENCES["min_discount_pct"]`. -/
def preferences_min_discount_pct : ℤ := 30

/-- `PREFERENCES["max_price"]`. -/
def preferences_max_price : ℚ := 60

/-- `PREFERENCES["min_score"]`. -/
def preferences_min_score : ℤ := 92

/-- `PREFERENCES["trusted_sources"]` (present in the config but not consulted
by `matches_preferences`). -/
def preferences_trusted_sources : List Str :=
  [str "wine spectator", str "wine advocate", str "robert parker"]

/-- Keyword rule of `matches_preferences` (line 142):
`any(kw in name_lower for kw in PREFERENCES["keywords"])`. -/
def keyword_ok (name : Str) : Bool :=
  preferences_keywords.any (fun kw => containsSub kw (pyLower name))

/-- Price rule (line 146): the deal passes unless `price > max_price`. -/
def price_ok (price : ℚ) : Bool := decide (price ≤ preferences_max_price)

/-- Discount rule (lines 150-153): if `original_price and original_price > 0`
(truthiness plus comparison, i.e. `0 < original_price`), reject when
`round((1 - price/original_price) * 100) < min_discount_pct`. -/
def discount_ok (price original_price : ℚ) : Bool :=
  if 0 < original_price then
    decide (preferences_min_discount_pct ≤ pyRound ((1 - price / original_price) * 100))
  else true

/-- Score rule (lines 156-161): `if scores:` is Python truthiness, so `None`
and the empty list both skip the rule; otherwise at least one entry must have
`s.get("score", 0) >= min_score`. -/
def score_ok (scores : Option (List ScoreEntry)) : Bool :=
  match scores with
  | none => true
  | some l =>
    if l = [] then true
    else l.any (fun s => decide (preferences_min_score ≤ s.score.getD 0))

/-- `matches_preferences` (lines 134-163): the four rules short-circuit in
order, each a hard reject. -/
def matches_preferences (name : Str) (price original_price : ℚ)
    (scores : Option (List ScoreEntry)) : Bool :=
  keyword_ok name && price_ok price && discount_ok price original_price && score_ok scores

/-- `wine_key` (lines 78-80): `f"{deal['name'].lower().strip()}|{deal['source'].lower()}"`. -/
def wine_key (d : Deal) : Str :=
  pyStrip (pyLower d.name) ++ '|' :: pyLower d.source

/-- The persisted `notified.json` file, at the granularity `load_notified`
distinguishes: missing (`FileNotFoundError`), unparseable
(`json.JSONDecodeError`), valid JSON that is not an object (so `data.get`
raises `AttributeError`), or an object with optional `"date"` and `"wines"`
fields. -/
inductive FileState where
  | missing
  | notJson
  | jsonNonDict
  | record (date : Option Str) (wines : List Str)
  deriving DecidableEq

/-- `load_notified` (lines 58-68).  Only `FileNotFoundError` and
`json.JSONDecodeError` are caught; `data.get` on a non-dict raises
`AttributeError` to the caller. -/
def load_notified (file : FileState) (today : Str) : Except PyErr (List Str) :=
  match file with
  | FileState.missing => Except.ok []
  | FileState.notJson => Except.ok []
  | FileState.jsonNonDict => Except.error PyErr.attributeError
  | FileState.record date wines =>
    Except.ok (if date = some today then wines else [])

/- ### C1: score rule of `matches_preferences` -/

/- ### C10: entries lacking a score field -/

/- ### C3: the wine key -/

/- ### C4: loading the dedup record -/

/- ### Aggregator, dedup filter and persistence (`main`, lines 444-491) -/

/-- Stable descending insertion: place `x` before the first element whose
discount does not exceed `x`'s.  `sortDesc` below is extensionally the stable
descending sort that `all_deals.sort(key=lambda x: x.get("discount", 0),
reverse=True)` performs (CPython's sort is stable; `reverse=True` keeps ties
in input order). -/
def insertDesc (x : Deal) : List Deal → List Deal
  | [] => [x]
  | y :: ys => if y.discount ≤ x.discount then x :: y :: ys else y :: insertDesc x ys

/-- Stable sort by `discount` descending (line 467). -/
def sortDesc : List Deal → List Deal
  | [] => []
  | x :: xs => insertDesc x (sortDesc xs)

/-- `send_sms` hands at most the first three deals to the SMS gateway
(`for deal in deals[:3]`, line 93); with missing credentials it only prints
and sends nothing. -/
def send_sms_deals (creds : Bool) (deals : List Deal) : List Deal :=
  if creds then deals.take 3 else []

/-- The observable outcome of one run: the deals considered new, the deals
handed to the SMS gateway, and the dedup record written (`none` = the stored
file is left untouched). -/
structure RunOutcome where
  new_deals : List Deal
  sms_sent : List Deal
  saved : Option (Str × List Str)
  deriving DecidableEq

/-- The ranking / dedup / notification / persistence tail of `main`
(lines 466-484): sort all deals by discount descending, load today's notified
keys, keep deals whose key is unknown, and — only when such deals exist —
notify and overwrite `notified.json` with today's date and the extended key
list (`already_notified.extend(...)`; `save_notified(already_notified)`). -/
def main_run (creds : Bool) (today : Str) (file : FileState)
    (all_deals : List Deal) : Except PyErr RunOutcome :=
  let sorted := sortDesc all_deals
  match load_notified file today with
  | Except.error e => Except.error e
  | Except.ok already =>
    let new_deals := sorted.filter (fun d => !(already.contains (wine_key d)))
    if new_deals = [] then
      Except.ok ⟨new_deals, [], none⟩
    else
      Except.ok ⟨new_deals, send_sms_deals creds new_deals,
                 some (today, already ++ new_deals.map wine_key)⟩

/- ### C5: ranking, stability and the top-3 cut -/

deriving instance DecidableEq for Except

/- Shared concrete run for witnesses: five deals with discounts
`[20, 50, 35, 50, 10]` (the spec's end-to-end case C shape). -/

/-- A sample deal with the given name and discount. -/
def sampleDeal (n : Str) (disc : ℤ) : Deal :=
  ⟨n, 10, 20, disc, str "https://www.wtso.com", str "WTSO", []⟩

/-- Five sample deals in extraction order. -/
def sampleDeals : List Deal :=
  [sampleDeal (str "Syrah A") 20, sampleDeal (str "Syrah B") 50,
   sampleDeal (str "Syrah C") 35, sampleDeal (str "Syrah D") 50,
   sampleDeal (str "Syrah E") 10]

/-- The outcome of `main_run` on `sampleDeals` with an empty dedup store. -/
def sampleOutcome : RunOutcome :=
  ⟨sortDesc sampleDeals, (sortDesc sampleDeals).take 3,
   some (str "2026-10-12", ([] : List Str) ++ (sortDesc sampleDeals).map wine_key)⟩

/- ### C7: persistence happens only for non-empty `new_deals`, wholesale -/

/- ### C8: all new deals are recorded as notified, sent or not -/

/- ### Site extractors -/

/-- Python `dict.get(k, dflt)` on a string-keyed association list. -/
def dictGet (m : List (Str × Str)) (k dflt : Str) : Str :=
  match m.find? (fun p => p.1 == k) with
  | some p => p.2
  | none => dflt

/-- `text.split(sep)[0]`: the characters before the first occurrence of
`sep` (the whole string if `sep` does not occur). -/
def splitBefore (sep : Str) : Str → Str
  | [] => []
  | c :: cs => if leadsWith sep (c :: cs) then [] else c :: splitBefore sep cs

/-- `re.match(r'([A-Z]{1,2})(\d{2,3})(?:-(\d{2,3}))?', text)` (line 206):
anchored at the start; greedy repetitions (letters cannot continue into
digits, so greediness without backtracking is exact here).  Returns the
abbreviation and the low and high score-group values. -/
def wtsoMatch (text : Str) : Option (Str × ℕ × ℕ) :=
  let (letters, rest1) := spanUpTo Char.isUpper 2 text
  if letters = [] then none
  else
    let (digs, rest2) := spanUpTo Char.isDigit 3 rest1
    if digs.length < 2 then none
    else
      let low := digitsVal digs
      match rest2 with
      | '-' :: rest3 =>
        let digs2 := (spanUpTo Char.isDigit 3 rest3).1
        if digs2.length < 2 then some (letters, low, low)
        else some (letters, low, digitsVal digs2)
      | _ => some (letters, low, low)

/-- `re.search(r"(\d{2,3})", s)` (lines 287, 366): the leftmost run of at
least two digits, greedily up to three. -/
def searchDigits23 : Str → Option ℕ
  | [] => none
  | c :: cs =>
    if c.isDigit then
      let digs := (spanUpTo Char.isDigit 3 (c :: cs)).1
      if 2 ≤ digs.length then some (digitsVal digs)
      else searchDigits23 cs
    else searchDigits23 cs

/-- After the digits of an award pattern: `\s*Points?` with `re.I` — skip
whitespace, then the text must continue with "point" in any case. -/
def spacesThenPoint (s : Str) : Bool :=
  leadsWith (str "point") (pyLower (s.dropWhile isPySpace))

/-- `re.search(r"(\d{2,3})\s*Points?", text, re.I)` (line 379).  Backtracking
from three digits to two can never help (the dropped digit cannot start
`\s*Point`), so the greedy run suffices at each start position. -/
def awardSearch : Str → Option ℕ
  | [] => none
  | c :: cs =>
    if c.isDigit then
      let digs := (spanUpTo Char.isDigit 3 (c :: cs)).1
      if 2 ≤ digs.length ∧ spacesThenPoint ((c :: cs).drop digs.length) then
        some (digitsVal digs)
      else awardSearch cs
    else awardSearch cs

/-- WTSO score abbreviations (lines 199-202). -/
def wtso_score_abbrevs : List (Str × Str) :=
  [(str "WA", str "Wine Advocate"), (str "WS", str "Wine Spectator"),
   (str "JD", str "Jeb Dunnuck"), (str "AG", str "Antonio Galloni"),
   (str "RP", str "Wine Advocate"), (str "JS", str "James Suckling"),
   (str "JH", str "James Halliday"), (str "V", str "Vinous")]

/-- WTSO critic-score loop (lines 198-213): for each `.show_description`
text, match the abbreviation pattern, keep the high end of a range, accept
only scores in `[80, 100]`, resolve the publication, and append — with no
per-publication deduplication. -/
def wtso_scores (descriptions : List Str) : List ScoreEntry :=
  descriptions.foldl (fun acc t =>
    match wtsoMatch (pyStrip t) with
    | some (ab, _low, high) =>
      if 80 ≤ high ∧ high ≤ 100 then
        acc ++ [⟨some (high : ℤ), dictGet wtso_score_abbrevs ab (str "unknown")⟩]
      else acc
    | none => acc) []

/-- The WTSO page, at the interface `scrape_wtso` consumes: the
`#current-offer` node (with its optional `h2` text), the `span#price` text,
the `#comparable-price .price-words span` text, and the `.show_description`
texts. -/
structure WtsoPage where
  current_offer : Option (Option Str)
  price_span : Option Str
  comparable : Option Str
  descriptions : List Str
  deriving DecidableEq

/-- The body of `scrape_wtso` (lines 174-218), producing at most one deal;
an uncaught error is handed to the scraper's `except` clause. -/
def wtso_deal (page : WtsoPage) : Except PyErr (Option Deal) :=
  match page.current_offer with
  | none => Except.ok none
  | some offer_h2 =>
    match offer_h2, page.price_span with
    | some nameText, some priceText =>
      let name := pyStrip nameText
      match floatOfClean (cleanNum (pyStrip priceText)) with
      | Except.error e => Except.error e
      | Except.ok price =>
        match (match page.comparable with
               | some t => floatOfClean (cleanNum (pyStrip t))
               | none => Except.ok 0) with
        | Except.error e => Except.error e
        | Except.ok orig_price =>
          let discount :=
            if 0 < orig_price then pyRound ((1 - price / orig_price) * 100) else 0
          let scores := wtso_scores page.descriptions
          if matches_preferences name price orig_price
              (if scores = [] then none else some scores) then
            Except.ok (some ⟨name, price, orig_price, discount,
              str "https://www.wtso.com", str "WTSO", scores⟩)
          else Except.ok none
    | _, _ => Except.ok none

/-- `scrape_wtso` (lines 166-221): `none` models a raised fetch/parse; any
exception is caught at the boundary with `deals` still empty. -/
def scrape_wtso (p : Option WtsoPage) : List Deal :=
  match p with
  | none => []
  | some page =>
    match wtso_deal page with
    | Except.ok (some d) => [d]
    | Except.ok none => []
    | Except.error _ => []

/-- One `.product__review` node of Last Bottle: the optional
`.product__reivew-score` text and the review node's full `get_text()`. -/
structure LBReview where
  scoreText : Option Str
  fullText : Str
  deriving DecidableEq

/-- The outcome of `json.loads(pjson_el.string)` for Last Bottle's
`#ProductJSON` element: decode failure or a `None` string (`JSONDecodeError` /
`TypeError`, both caught locally), valid JSON that is not an object
(`pdata.get` then raises `AttributeError`, which is NOT caught locally), or an
object with an optional `"title"` and a `"variants"` list whose first entry
has an optional numeric `"price"` in cents. -/
inductive PJsonState where
  | parseFail
  | nonDict
  | dict (title : Option Str) (variants : List (Option ℚ))
  deriving DecidableEq

/-- The Last Bottle page at the interface `scrape_lastbottle` consumes. -/
structure LastBottlePage where
  product_title : Option Str
  product_json : Option PJsonState
  price_divs : List Str
  reviews : List LBReview
  deriving DecidableEq

/-- Lines 257-264: the first `.product__price` text containing `"RETAIL"`
sets `orig_price` from the cleaned text before `"RETAIL"` (if non-empty) and
breaks; `float` on a malformed cleaned value raises to the site boundary. -/
def lb_orig_price : List Str → Except PyErr ℚ
  | [] => Except.ok 0
  | t :: ts =>
    let text := pyStrip t
    if containsSub (str "RETAIL") text then
      let val := cleanNum (splitBefore (str "RETAIL") text)
      if val = [] then Except.ok 0 else floatOfClean val
    else lb_orig_price ts

/-- Lines 267-274: fallback sale price from the first `.product__price` text
containing `"LAST BOTTLE"`. -/
def lb_fallback_price : List Str → Except PyErr ℚ
  | [] => Except.ok 0
  | t :: ts =>
    let text := pyStrip t
    if containsSub (str "LAST BOTTLE") text then
      let val := cleanNum (splitBefore (str "LAST BOTTLE") text)
      if val = [] then Except.ok 0 else floatOfClean val
    else lb_fallback_price ts

/-- Lines 294-307: resolve a Last Bottle review's publication from the
lower-cased review text. -/
def lb_source (review_text : Str) : Str :=
  if containsSub (str "wine spectator") review_text ||
     containsSub (str "ws ") review_text then str "Wine Spectator"
  else if containsSub (str "wine advocate") review_text ||
     containsSub (str "robert parker") review_text then str "Wine Advocate"
  else if containsSub (str "vinous") review_text ||
     containsSub (str "galloni") review_text then str "Vinous"
  else if containsSub (str "jeb dunnuck") review_text then str "Jeb Dunnuck"
  else if containsSub (str "james suckling") review_text then str "James Suckling"
  else if containsSub (str "wine enthusiast") review_text then str "Wine Enthusiast"
  else str "unknown"

/-- Last Bottle critic-score loop (lines 281-308): per review, read the score
fragment, keep scores in `[80, 100]`, resolve the publication from the review
text, and append — with no per-publication deduplication. -/
def lb_scores (reviews : List LBReview) : List ScoreEntry :=
  reviews.foldl (fun acc r =>
    match r.scoreText with
    | none => acc
    | some st =>
      match searchDigits23 (pyStrip st) with
      | none => acc
      | some v =>
        if 80 ≤ v ∧ v ≤ 100 then
          acc ++ [⟨some (v : ℤ), lb_source (pyLower r.fullText)⟩]
        else acc) []

/-- The body of `scrape_lastbottle` (lines 232-313). -/
def lastbottle_deal (page : LastBottlePage) : Except PyErr (Option Deal) :=
  let name0 : Str :=
    match page.product_title with
    | some t => pyStrip t
    | none => []
  match (match page.product_json with
         | none => Except.ok (name0, (0 : ℚ))
         | some PJsonState.parseFail => Except.ok (name0, (0 : ℚ))
         | some PJsonState.nonDict => Except.error PyErr.attributeError
         | some (PJsonState.dict title variants) =>
           let name1 := if name0 = [] then title.getD [] else name0
           let price0 : ℚ :=
             match variants with
             | [] => 0
             | v :: _ => v.getD 0 / 100
           Except.ok (name1, price0)) with
  | Except.error e => Except.error e
  | Except.ok (name, price0) =>
    if name = [] then Except.ok none
    else
      match lb_orig_price page.price_divs with
      | Except.error e => Except.error e
      | Except.ok orig_price =>
        match (if price0 = 0 then lb_fallback_price page.price_divs
               else Except.ok price0) with
        | Except.error e => Except.error e
        | Except.ok price =>
          let discount :=
            if 0 < orig_price ∧ 0 < price then pyRound ((1 - price / orig_price) * 100)
            else 0
          let scores := lb_scores page.reviews
          if matches_preferences name price orig_price
              (if scores = [] then none else some scores) then
            Except.ok (some ⟨name, price, orig_price, discount,
              str "https://lastbottlewines.com", str "Last Bottle", scores⟩)
          else Except.ok none

/-- `scrape_lastbottle` (lines 224-316). -/
def scrape_lastbottle (p : Option LastBottlePage) : List Deal :=
  match p with
  | none => []
  | some page =>
    match lastbottle_deal page with
    | Except.ok (some d) => [d]
    | Except.ok none => []
    | Except.error _ => []

/-- One `.feedback-items-list .feedback-item` node of Wine Spies: the
optional `.feedback-name` and `.feedback-body` texts. -/
structure WSFeedback where
  fname : Option Str
  fbody : Option Str
  deriving DecidableEq

/-- The Wine Spies page at the interface `scrape_winespies` consumes. -/
structure WineSpiesPage where
  offer_heading : Option Str
  price_amount : Option Str
  avg_amount : Option Str
  feedback_items : List WSFeedback
  awards : List Str
  deriving DecidableEq

/-- Wine Spies abbreviation map (lines 354-357). -/
def ws_source_map : List (Str × Str) :=
  [(str "WE", str "Wine Enthusiast"), (str "WS", str "Wine Spectator"),
   (str "WA", str "Wine Advocate"), (str "RP", str "Wine Advocate"),
   (str "JD", str "Jeb Dunnuck"), (str "JS", str "James Suckling"),
   (str "AG", str "Antonio Galloni"), (str "V", str "Vinous")]

/-- Lines 383-396: resolve an award's publication from its lower-cased text. -/
def ws_award_source (text_lower : Str) : Str :=
  if containsSub (str "spectator") text_lower then str "Wine Spectator"
  else if containsSub (str "advocate") text_lower ||
     containsSub (str "parker") text_lower then str "Wine Advocate"
  else if containsSub (str "enthusiast") text_lower then str "Wine Enthusiast"
  else if containsSub (str "vinous") text_lower ||
     containsSub (str "galloni") text_lower then str "Vinous"
  else if containsSub (str "suckling") text_lower then str "James Suckling"
  else if containsSub (str "dunnuck") text_lower then str "Jeb Dunnuck"
  else str "unknown"

/-- One iteration of the Wine Spies method-1 loop (lines 360-373), over the
state (collected scores, `seen_sources`): append only when the resolved
publication has not been seen. -/
def ws_step (st : List ScoreEntry × List Str) (item : WSFeedback) :
    List ScoreEntry × List Str :=
  match item.fname, item.fbody with
  | some ft, some bt =>
    match searchDigits23 (pyStrip bt) with
    | some v =>
      if 80 ≤ v ∧ v ≤ 100 then
        let src := dictGet ws_source_map (pyStrip ft) (str "unknown")
        if src ∈ st.2 then st
        else (st.1 ++ [⟨some (v : ℤ), src⟩], src :: st.2)
      else st
    | none => st
  | _, _ => st

/-- One iteration of the Wine Spies method-2 loop (lines 377-399), over
`.feedback-body.award` texts, sharing `seen_sources` with method 1. -/
def ws_award_step (st : List ScoreEntry × List Str) (t : Str) :
    List ScoreEntry × List Str :=
  let text := pyStrip t
  match awardSearch text with
  | some v =>
    if 80 ≤ v ∧ v ≤ 100 then
      let src := ws_award_source (pyLower text)
      if src ∈ st.2 then st
      else (st.1 ++ [⟨some (v : ℤ), src⟩], src :: st.2)
    else st
  | none => st

/-- Wine Spies critic-score extraction (lines 352-399): method 1 over the
feedback items; method 2 over award texts only if method 1 found nothing
(`if not scores:`), continuing with the same `seen_sources` set. -/
def ws_scores (items : List WSFeedback) (awards : List Str) : List ScoreEntry :=
  let st1 := items.foldl ws_step ([], [])
  if st1.1 = [] then (awards.foldl ws_award_step st1).1
  else st1.1

/-- The body of `scrape_winespies` (lines 327-404). -/
def winespies_deal (page : WineSpiesPage) : Except PyErr (Option Deal) :=
  match page.offer_heading with
  | none => Except.ok none
  | some nameText =>
    let name := pyStrip nameText
    match (match page.price_amount with
           | some t => floatOfClean (cleanNum (pyStrip t))
           | none => Except.ok 0) with
    | Except.error e => Except.error e
    | Except.ok price =>
      match (match page.avg_amount with
             | some t => floatOfClean (cleanNum (pyStrip t))
             | none => Except.ok 0) with
      | Except.error e => Except.error e
      | Except.ok orig_price =>
        let discount :=
          if 0 < orig_price ∧ 0 < price then pyRound ((1 - price / orig_price) * 100)
          else 0
        let scores := ws_scores page.feedback_items page.awards
        if matches_preferences name price orig_price
            (if scores = [] then none else some scores) then
          Except.ok (some ⟨name, price, orig_price, discount,
            str "https://www.winespies.com", str "Wine Spies", scores⟩)
        else Except.ok none

/-- `scrape_winespies` (lines 319-407). -/
def scrape_winespies (p : Option WineSpiesPage) : List Deal :=
  match p with
  | none => []
  | some page =>
    match winespies_deal page with
    | Except.ok (some d) => [d]
    | Except.ok none => []
    | Except.error _ => []

/- ### C9: every extractor is a single-deal extractor -/

/-- A Wine Spies page whose sale price parses as `0` with a positive retail
price: the deal still matches (the matcher recomputes the discount without
the `price > 0` guard) and is emitted with `discount == 0`. -/
def c2page : WineSpiesPage :=
  ⟨some (str "Estate Malbec"), some (str "$0"), some (str "$50"), [], []⟩

/-- The deal `scrape_winespies` emits for `c2page`. -/
def c2deal : Deal :=
  ⟨str "Estate Malbec", 0, 50, 0, str "https://www.winespies.com",
   str "Wine Spies", []⟩

/-- Demo WTSO page and the deal extracted from it. -/
def wtso_demo_page : WtsoPage :=
  ⟨some (some (str "Guidalberto 2019")), some (str "$40.00"),
   some (str "$80.00"), [str "WA95-97"]⟩

/-- The deal `scrape_wtso` emits for `wtso_demo_page`. -/
def wtso_demo_deal : Deal :=
  ⟨str "Guidalberto 2019", 40, 80, 50, str "https://www.wtso.com", str "WTSO",
   [⟨some 97, str "Wine Advocate"⟩]⟩

/-- Demo Last Bottle page and the deal extracted from it. -/
def lb_demo_page : LastBottlePage :=
  ⟨some (str "Old Vine Zin 2021"),
   some (PJsonState.dict (some (str "ignored")) [some 1500]),
   [str "$30 RETAIL", str "$15 LAST BOTTLE"],
   [⟨some (str "95"), str "Wine Spectator says great"⟩]⟩

/-- The deal `scrape_lastbottle` emits for `lb_demo_page`. -/
def lb_demo_deal : Deal :=
  ⟨str "Old Vine Zin 2021", 15, 30, 50, str "https://lastbottlewines.com",
   str "Last Bottle", [⟨some 95, str "Wine Spectator"⟩]⟩

/-- Demo Wine Spies page with a repeated publication in its feedback items. -/
def ws_demo_page : WineSpiesPage :=
  ⟨some (str "Estate Malbec"), some (str "$19"), some (str "$40"),
   [⟨some (str "WS"), some (str "95 pts")⟩, ⟨some (str "WS"), some (str "96 pts")⟩],
   []⟩

/-- The deal `scrape_winespies` emits for `ws_demo_page`. -/
def ws_demo_deal : Deal :=
  ⟨str "Estate Malbec", 19, 40, 52, str "https://www.winespies.com",
   str "Wine Spies", [⟨some 95, str "Wine Spectator"⟩]⟩

/- ### C6: per-publication deduplication of critic scores -/

/-- A WTSO page whose two `.show_description` fragments both resolve to
Wine Advocate. -/
def c6page : WtsoPage :=
  ⟨some (some (str "Syrah Sample")), some (str "$10.00"), some (str "$20.00"),
   [str "WA95", str "WA96"]⟩

/-- The deal `scrape_wtso` emits for `c6page`: two entries for the same
resolved publication. -/
def c6deal : Deal :=
  ⟨str "Syrah Sample", 10, 20, 50, str "https://www.wtso.com", str "WTSO",
   [⟨some 95, str "Wine Advocate"⟩, ⟨some 96, str "Wine Advocate"⟩]⟩

/-- The Wine Spies loop invariant: the collected publications are distinct,
and each of them is in `seen_sources`. -/
def wsInv (st : List ScoreEntry × List Str) : Prop :=
  (st.1.map ScoreEntry.source).Nodup ∧ ∀ e ∈ st.1, e.source ∈ st.2

/- ### Theorems -/

/- ### Basic sanity examples (concrete runs of the embedded matcher) -/

example : keyword_ok (str "Guidalberto 2019") = true := by decide
example : matches_preferences (str "Guidalberto 2019") 40 80
    (some [⟨some 95, str "Wine Advocate"⟩]) = true := by decide
example : pyRound ((1 - (40 : ℚ) / 80) * 100) = 50 := by decide
example : matches_preferences (str "Guidalberto 2019") 61 80
    (some [⟨some 95, str "Wine Advocate"⟩]) = false := by decide
example : matches_preferences (str "Merlot 2019") 40 80 none = false := by decide
example : matches_preferences (str "Guidalberto 2019") 40 80
    (some [⟨some 91, str "Wine Advocate"⟩]) = false := by decide
example : matches_preferences (str "Guidalberto 2019") 40 80 (some []) = true := by decide

/-- C1: for the fixed preference profile, once a deal has passed the keyword,
price and discount checks, `matches_preferences` with a non-empty
`critic_scores` list returns `true` iff some entry's score is at least
`min_score`, regardless of that entry's publication; and with `None` or an
empty list the score rule never causes rejection. -/
theorem c1_any_source_score_rule (name : Str) (price original_price : ℚ)
    (l : List ScoreEntry)
    (hkw : keyword_ok name = true)
    (hpr : price_ok price = true)
    (hdc : discount_ok price original_price = true) :
    (l ≠ [] →
      (matches_preferences name price original_price (some l) = true ↔
        ∃ s ∈ l, preferences_min_score ≤ s.score.getD 0)) ∧
    matches_preferences name price original_price none = true ∧
    matches_preferences name price original_price (some []) = true := by
  refine ⟨fun hl => ?_, ?_, ?_⟩
  · simp [matches_preferences, hkw, hpr, hdc, score_ok, hl, List.any_eq_true]
  · simp [matches_preferences, hkw, hpr, hdc, score_ok]
  · simp [matches_preferences, hkw, hpr, hdc, score_ok]

/-- C1 witness: a concrete instantiation of `c1_any_source_score_rule`. -/
theorem c1_any_source_score_rule_witness :
    ((([⟨some 95, str "Jeb Dunnuck"⟩] : List ScoreEntry) ≠ []) →
      (matches_preferences (str "Syrah Example") 10 20
          (some [⟨some 95, str "Jeb Dunnuck"⟩]) = true ↔
        ∃ s ∈ ([⟨some 95, str "Jeb Dunnuck"⟩] : List ScoreEntry),
          preferences_min_score ≤ s.score.getD 0)) ∧
    matches_preferences (str "Syrah Example") 10 20 none = true ∧
    matches_preferences (str "Syrah Example") 10 20 (some []) = true :=
  c1_any_source_score_rule (str "Syrah Example") 10 20 _
    (by decide) (by decide) (by decide)

/-- C10: with a non-empty score list, an entry without a `"score"` field is
evaluated as score `0` by `s.get("score", 0)`, so it can never satisfy the
minimum-score requirement; if `matches_preferences` nevertheless accepts, some
other entry meets the threshold.  (The lookup is total — `dict.get` with a
default — so no exception is modelled for malformed entries.) -/
theorem c10_missing_score_is_zero (name : Str) (price original_price : ℚ)
    (l : List ScoreEntry) (e : ScoreEntry)
    (he : e ∈ l) (hnone : e.score = none) :
    ¬ preferences_min_score ≤ e.score.getD 0 ∧
    (matches_preferences name price original_price (some l) = true →
      ∃ s ∈ l, s ≠ e ∧ preferences_min_score ≤ s.score.getD 0) := by
  have hz : e.score.getD 0 = 0 := by rw [hnone]; rfl
  constructor
  · rw [hz]; decide
  · intro hm
    have hsc : score_ok (some l) = true := by
      have := hm
      simp only [matches_preferences, Bool.and_eq_true] at this
      exact this.2
    have hlne : l ≠ [] := by intro h; subst h; cases he
    simp only [score_ok, if_neg hlne, List.any_eq_true, decide_eq_true_eq] at hsc
    obtain ⟨s, hs, hscore⟩ := hsc
    refine ⟨s, hs, fun hse => ?_, hscore⟩
    rw [hse, hz] at hscore
    exact absurd hscore (by decide)

/-- C10 witness: a concrete entry with no score cannot pass, and the deal is
accepted only because another entry reaches the threshold. -/
theorem c10_missing_score_is_zero_witness :
    ¬ preferences_min_score ≤ (ScoreEntry.mk none (str "unknown")).score.getD 0 ∧
    (matches_preferences (str "Syrah Pick") 10 20
        (some [⟨none, str "unknown"⟩, ⟨some 93, str "Wine Spectator"⟩]) = true →
      ∃ s ∈ ([⟨none, str "unknown"⟩, ⟨some 93, str "Wine Spectator"⟩] : List ScoreEntry),
        s ≠ ⟨none, str "unknown"⟩ ∧ preferences_min_score ≤ s.score.getD 0) :=
  c10_missing_score_is_zero (str "Syrah Pick") 10 20 _ _
    (by decide) rfl

/-- Names that avoid `'|'` make `a ++ '|' :: b` injective. -/
theorem pipe_append_inj (a1 a2 b1 b2 : Str)
    (h1 : '|' ∉ a1) (h2 : '|' ∉ a2)
    (h : a1 ++ '|' :: b1 = a2 ++ '|' :: b2) : a1 = a2 ∧ b1 = b2 := by
  induction a1 generalizing a2 with
  | nil =>
    cases a2 with
    | nil => simpa using h
    | cons c cs =>
      simp only [List.nil_append, List.cons_append, List.cons.injEq] at h
      exact absurd (h.1 ▸ List.mem_cons_self c cs) (h.1 ▸ h2)
  | cons c cs ih =>
    cases a2 with
    | nil =>
      simp only [List.cons_append, List.nil_append, List.cons.injEq] at h
      exact absurd (h.1 ▸ List.mem_cons_self c cs) (by
        rw [h.1] at h1; exact h1)
    | cons d ds =>
      simp only [List.cons_append, List.cons.injEq] at h
      obtain ⟨rfl, h'⟩ := h
      have := ih ds (fun hm => h1 (List.mem_cons_of_mem _ hm))
        (fun hm => h2 (List.mem_cons_of_mem _ hm)) h'
      exact ⟨by rw [this.1], this.2⟩

/-- C3 counterexample: the claimed equivalence fails as stated, because a `'|'`
inside a name lets two different deals share a key: `{name: "a|b", source: "c"}`
and `{name: "a", source: "b|c"}` have equal keys but names that differ even
after lower-casing and trimming. -/
theorem c3_wine_key_counterexample :
    wine_key ⟨str "a|b", 0, 0, 0, [], str "c", []⟩ =
      wine_key ⟨str "a", 0, 0, 0, [], str "b|c", []⟩ ∧
    ¬ pyStrip (pyLower (str "a|b")) = pyStrip (pyLower (str "a")) := by
  decide

/-- C3 amended: provided neither lower-cased trimmed name contains `'|'`,
`wine_key d1 = wine_key d2` iff the names agree ignoring case and
leading/trailing whitespace and the sources agree ignoring case. -/
theorem c3_wine_key_amended (d1 d2 : Deal)
    (h1 : '|' ∉ pyStrip (pyLower d1.name))
    (h2 : '|' ∉ pyStrip (pyLower d2.name)) :
    wine_key d1 = wine_key d2 ↔
      (pyStrip (pyLower d1.name) = pyStrip (pyLower d2.name) ∧
       pyLower d1.source = pyLower d2.source) := by
  constructor
  · intro h
    have := pipe_append_inj _ _ _ _ h1 h2 h
    exact ⟨this.1, this.2⟩
  · intro ⟨hn, hs⟩
    unfold wine_key
    rw [hn, hs]

/-- C3 witness: a concrete instantiation of `c3_wine_key_amended` — the same
wine differing only in case and surrounding whitespace gets the same key. -/
theorem c3_wine_key_amended_witness :
    wine_key ⟨str "  Syrah Hill ", 0, 0, 0, [], str "WTSO", []⟩ =
      wine_key ⟨str "syrah hill", 0, 0, 0, [], str "wtso", []⟩ ↔
      (pyStrip (pyLower (str "  Syrah Hill ")) = pyStrip (pyLower (str "syrah hill")) ∧
       pyLower (str "WTSO") = pyLower (str "wtso")) :=
  c3_wine_key_amended _ _ (by decide) (by decide)

/-- C4 counterexample: content that parses as JSON but is not an object (for
example the file `[1, 2]`) makes `load_notified` raise `AttributeError` to
the caller — the claim that loading never raises is false. -/
theorem c4_load_counterexample :
    load_notified FileState.jsonNonDict (str "2026-10-12") =
      Except.error PyErr.attributeError := rfl

/-- C4 amended: a missing file and content that fails JSON parsing yield the
empty key set; a stored object returns its key set exactly when its stored day
equals today, and the empty set otherwise (also when the `"date"` field is
absent).  But content that parses as JSON without being an object raises an
uncaught `AttributeError` to the caller, so loading is not error-free. -/
theorem c4_load_amended (today : Str) (date : Option Str) (wines : List Str) :
    load_notified FileState.missing today = Except.ok [] ∧
    load_notified FileState.notJson today = Except.ok [] ∧
    load_notified (FileState.record date wines) today =
      Except.ok (if date = some today then wines else []) ∧
    (date ≠ some today →
      load_notified (FileState.record date wines) today = Except.ok []) := by
  refine ⟨rfl, rfl, rfl, fun h => ?_⟩
  simp [load_notified, h]

/-- C4 witness: a concrete instantiation of `c4_load_amended` with a stale
stored day. -/
theorem c4_load_amended_witness :
    load_notified (FileState.record (some (str "2026-10-11")) [str "k1|wtso"])
      (str "2026-10-12") = Except.ok [] :=
  (c4_load_amended (str "2026-10-12") (some (str "2026-10-11")) [str "k1|wtso"]).2.2.2
    (by decide)

/- Sorting lemmas -/

theorem insertDesc_perm (x : Deal) (l : List Deal) :
    (insertDesc x l).Perm (x :: l) := by
  induction l with
  | nil => rfl
  | cons y ys ih =>
    unfold insertDesc
    split
    · rfl
    · exact ((ih.cons y).trans (List.Perm.swap x y ys)).symm.symm

theorem sortDesc_perm (l : List Deal) : (sortDesc l).Perm l := by
  induction l with
  | nil => rfl
  | cons x xs ih => exact (insertDesc_perm x (sortDesc xs)).trans (ih.cons x)

theorem insertDesc_pairwise (x : Deal) (l : List Deal)
    (h : l.Pairwise (fun a b => b.discount ≤ a.discount)) :
    (insertDesc x l).Pairwise (fun a b => b.discount ≤ a.discount) := by
  induction l with
  | nil => simp [insertDesc]
  | cons y ys ih =>
    unfold insertDesc
    rcases List.pairwise_cons.1 h with ⟨hy, hys⟩
    split
    · refine List.pairwise_cons.2 ⟨?_, h⟩
      intro z hz
      rcases List.mem_cons.1 hz with rfl | hz
      · assumption
      · exact le_trans (hy z hz) (by assumption)
    · refine List.pairwise_cons.2 ⟨?_, ih hys⟩
      intro z hz
      rcases List.mem_cons.1 ((insertDesc_perm x ys).mem_iff.1 hz) with rfl | hz
      · exact le_of_not_le (by assumption)
      · exact hy z hz

theorem sortDesc_pairwise (l : List Deal) :
    (sortDesc l).Pairwise (fun a b => b.discount ≤ a.discount) := by
  induction l with
  | nil => simp [sortDesc]
  | cons x xs ih => exact insertDesc_pairwise x (sortDesc xs) ih

theorem insertDesc_filter (x : Deal) (l : List Deal) (v : ℤ) :
    (insertDesc x l).filter (fun d => d.discount == v) =
      if x.discount = v then x :: l.filter (fun d => d.discount == v)
      else l.filter (fun d => d.discount == v) := by
  induction l with
  | nil => by_cases hx : x.discount = v <;> simp [insertDesc, hx]
  | cons y ys ih =>
    unfold insertDesc
    by_cases hx : x.discount = v
    · split
      · by_cases hy : y.discount = v <;> simp [hx, hy]
      · have hy : ¬ y.discount = v := by
          intro hyv
          exact absurd (le_of_eq (hyv.trans hx.symm)) (by assumption)
        simp [hx, hy, ih]
    · split
      · by_cases hy : y.discount = v <;> simp [hx, hy]
      · by_cases hy : y.discount = v <;> simp [hx, hy, ih]

theorem sortDesc_filter (l : List Deal) (v : ℤ) :
    (sortDesc l).filter (fun d => d.discount == v) =
      l.filter (fun d => d.discount == v) := by
  induction l with
  | nil => rfl
  | cons x xs ih =>
    unfold sortDesc
    rw [insertDesc_filter]
    by_cases hx : x.discount = v <;> simp [hx, ih]

/-- C5: the aggregator's ranking is by `discount` descending (the output is a
permutation of the input, pairwise non-increasing in discount) and stable
(deals of any fixed discount keep their input order); the deduplicated list is
the ranked list filtered by unknown key in order; and the notifier receives
only `new_deals[:3]` — at most the first 3 of the deduplicated ranked list
(nothing at all without credentials). -/
theorem c5_rank_stable_top3 (creds : Bool) (today : Str) (file : FileState)
    (all_deals : List Deal) (already : List Str) (out : RunOutcome)
    (hload : load_notified file today = Except.ok already)
    (hrun : main_run creds today file all_deals = Except.ok out) :
    (sortDesc all_deals).Perm all_deals ∧
    (sortDesc all_deals).Pairwise (fun a b => b.discount ≤ a.discount) ∧
    (∀ v : ℤ, (sortDesc all_deals).filter (fun d => d.discount == v) =
        all_deals.filter (fun d => d.discount == v)) ∧
    out.new_deals = (sortDesc all_deals).filter
        (fun d => !(already.contains (wine_key d))) ∧
    out.sms_sent = (if creds then out.new_deals.take 3 else []) ∧
    out.sms_sent.length ≤ 3 := by
  simp only [main_run, hload] at hrun
  refine ⟨sortDesc_perm _, sortDesc_pairwise _, fun v => sortDesc_filter _ v, ?_⟩
  by_cases hnd : (sortDesc all_deals).filter (fun d => !(already.contains (wine_key d))) = []
  · rw [if_pos hnd] at hrun
    injection hrun with h
    subst h
    refine ⟨rfl, ?_, by simp⟩
    rw [hnd]
    simp
  · rw [if_neg hnd] at hrun
    injection hrun with h
    subst h
    refine ⟨rfl, rfl, ?_⟩
    unfold send_sms_deals
    split
    · simp only [List.length_take]
      omega
    · simp

example : (sortDesc sampleDeals).map Deal.discount = [50, 50, 35, 20, 10] := by decide
example : (sortDesc sampleDeals).map Deal.name =
    [str "Syrah B", str "Syrah D", str "Syrah C", str "Syrah A", str "Syrah E"] := by
  decide

/-- C5 witness: a concrete instantiation of `c5_rank_stable_top3` on five
deals with discounts `[20, 50, 35, 50, 10]` and an empty dedup store. -/
theorem c5_rank_stable_top3_witness :
    (sortDesc sampleDeals).Perm sampleDeals ∧
    (sortDesc sampleDeals).Pairwise (fun a b => b.discount ≤ a.discount) ∧
    ((sortDesc sampleDeals).filter (fun d => d.discount == 50) =
      sampleDeals.filter (fun d => d.discount == 50)) ∧
    sampleOutcome.new_deals = (sortDesc sampleDeals).filter
        (fun d => !(([] : List Str).contains (wine_key d))) ∧
    sampleOutcome.sms_sent = (if true then sampleOutcome.new_deals.take 3 else []) ∧
    sampleOutcome.sms_sent.length ≤ 3 :=
  have h := c5_rank_stable_top3 true (str "2026-10-12") FileState.missing
    sampleDeals [] sampleOutcome rfl (by decide)
  ⟨h.1, h.2.1, h.2.2.1 50, h.2.2.2⟩

/-- C7: the dedup record is written only in runs with non-empty `new_deals`
(otherwise the stored record is untouched), and when written it is overwritten
wholesale with today's date and the previously known keys extended by the keys
of every deal in `new_deals` — as a set, the union of the two. -/
theorem c7_persist_only_when_new (creds : Bool) (today : Str) (file : FileState)
    (all_deals : List Deal) (already : List Str) (out : RunOutcome)
    (hload : load_notified file today = Except.ok already)
    (hrun : main_run creds today file all_deals = Except.ok out) :
    (out.new_deals = [] → out.saved = none) ∧
    (out.new_deals ≠ [] →
      out.saved = some (today, already ++ out.new_deals.map wine_key) ∧
      ∀ k, k ∈ already ++ out.new_deals.map wine_key ↔
        (k ∈ already ∨ k ∈ out.new_deals.map wine_key)) := by
  simp only [main_run, hload] at hrun
  by_cases hnd : (sortDesc all_deals).filter (fun d => !(already.contains (wine_key d))) = []
  · rw [if_pos hnd] at hrun
    injection hrun with h
    subst h
    exact ⟨fun _ => rfl, fun hne => absurd hnd hne⟩
  · rw [if_neg hnd] at hrun
    injection hrun with h
    subst h
    exact ⟨fun he => absurd he hnd,
      fun _ => ⟨rfl, fun k => List.mem_append⟩⟩

/-- C7 witness: a concrete instantiation of `c7_persist_only_when_new` where
new deals exist, with one key membership instantiated. -/
theorem c7_persist_only_when_new_witness :
    sampleOutcome.saved =
      some (str "2026-10-12", ([] : List Str) ++ sampleOutcome.new_deals.map wine_key) ∧
    (str "syrah b|wtso" ∈ ([] : List Str) ++ sampleOutcome.new_deals.map wine_key ↔
      (str "syrah b|wtso" ∈ ([] : List Str) ∨
        str "syrah b|wtso" ∈ sampleOutcome.new_deals.map wine_key)) :=
  have h := c7_persist_only_when_new true (str "2026-10-12") FileState.missing
    sampleDeals [] sampleOutcome rfl (by decide)
  ⟨(h.2 (by decide)).1, (h.2 (by decide)).2 (str "syrah b|wtso")⟩

/-- C8: after a run with non-empty `new_deals`, the written record contains
the key of every deal in `new_deals` — in particular of every deal ranked
4th or later (`new_deals.drop 3`), even though only `new_deals[:3]` is ever
handed to the SMS gateway — so those deals are suppressed for the rest of the
day without any delivery attempt. -/
theorem c8_unsent_deals_still_recorded (creds : Bool) (today : Str)
    (file : FileState) (all_deals : List Deal) (already : List Str)
    (out : RunOutcome)
    (hload : load_notified file today = Except.ok already)
    (hrun : main_run creds today file all_deals = Except.ok out)
    (hne : out.new_deals ≠ []) :
    ∃ wines, out.saved = some (today, wines) ∧
      (∀ d ∈ out.new_deals, wine_key d ∈ wines) ∧
      out.sms_sent = (if creds then out.new_deals.take 3 else []) ∧
      (∀ d ∈ out.new_deals.drop 3, wine_key d ∈ wines) := by
  simp only [main_run, hload] at hrun
  by_cases hnd : (sortDesc all_deals).filter (fun d => !(already.contains (wine_key d))) = []
  · rw [if_pos hnd] at hrun
    injection hrun with h
    subst h
    exact absurd hnd hne
  · rw [if_neg hnd] at hrun
    injection hrun with h
    subst h
    refine ⟨_, rfl, ?_, rfl, ?_⟩
    · intro d hd
      exact List.mem_append_right _ (List.mem_map_of_mem wine_key hd)
    · intro d hd
      exact List.mem_append_right _
        (List.mem_map_of_mem wine_key (List.drop_subset 3 _ hd))

/-- C8 witness: a concrete run with five new deals; the 4th and 5th ranked
deals are not in `sms_sent` yet their keys are recorded. -/
theorem c8_unsent_deals_still_recorded_witness :
    ∃ wines, sampleOutcome.saved = some (str "2026-10-12", wines) ∧
      (∀ d ∈ sampleOutcome.new_deals, wine_key d ∈ wines) ∧
      sampleOutcome.sms_sent = (if true then sampleOutcome.new_deals.take 3 else []) ∧
      (∀ d ∈ sampleOutcome.new_deals.drop 3, wine_key d ∈ wines) :=
  c8_unsent_deals_still_recorded true (str "2026-10-12") FileState.missing
    sampleDeals [] sampleOutcome rfl (by decide) (by decide)

/-- C9: whatever the fetched page looks like (including fetch failure and any
exception inside the scraper), each of the three extractors returns at most
one deal: `deals` starts empty and the single `deals.append` is the last
statement before `return`. -/
theorem c9_single_deal (pw : Option WtsoPage) (pl : Option LastBottlePage)
    (ps : Option WineSpiesPage) :
    (scrape_wtso pw).length ≤ 1 ∧
    (scrape_lastbottle pl).length ≤ 1 ∧
    (scrape_winespies ps).length ≤ 1 := by
  refine ⟨?_, ?_, ?_⟩
  · unfold scrape_wtso
    split
    · simp
    · split <;> simp
  · unfold scrape_lastbottle
    split
    · simp
    · split <;> simp
  · unfold scrape_winespies
    split
    · simp
    · split <;> simp

/- ### C2: the stored discount field -/

theorem wtso_deal_discount (page : WtsoPage) (d : Deal)
    (h : wtso_deal page = Except.ok (some d)) :
    d.discount =
      if 0 < d.original then pyRound ((1 - d.price / d.original) * 100) else 0 := by
  unfold wtso_deal at h
  simp only [] at h
  repeat' split at h
  all_goals first
    | (simp only [Except.ok.injEq, Option.some.injEq] at h
       subst h
       split <;> simp_all)
    | cases h

theorem lastbottle_deal_discount (page : LastBottlePage) (d : Deal)
    (h : lastbottle_deal page = Except.ok (some d)) :
    d.discount =
      if 0 < d.original ∧ 0 < d.price then pyRound ((1 - d.price / d.original) * 100)
      else 0 := by
  unfold lastbottle_deal at h
  simp only [] at h
  repeat' split at h
  all_goals first
    | (simp only [Except.ok.injEq, Option.some.injEq] at h
       subst h
       split <;> simp_all)
    | cases h

theorem winespies_deal_discount (page : WineSpiesPage) (d : Deal)
    (h : winespies_deal page = Except.ok (some d)) :
    d.discount =
      if 0 < d.original ∧ 0 < d.price then pyRound ((1 - d.price / d.original) * 100)
      else 0 := by
  unfold winespies_deal at h
  simp only [] at h
  repeat' split at h
  all_goals first
    | (simp only [Except.ok.injEq, Option.some.injEq] at h
       subst h
       split <;> simp_all)
    | cases h

/-- C2 counterexample: a Wine Spies listing with parsed sale price `0` and
`original_price = 50 > 0` is emitted with stored discount `0`, not
`round((1 - 0/50) * 100) = 100` — the claim fails for the Wine Spies (and,
symmetrically, Last Bottle) extractor when the sale price is `0`. -/
theorem c2_discount_counterexample :
    scrape_winespies (some c2page) = [c2deal] ∧
    0 < c2deal.original ∧
    ¬ c2deal.discount = pyRound ((1 - c2deal.price / c2deal.original) * 100) := by
  decide

/-- C2 amended: a WTSO deal stores
`round((1 - price/original) * 100)` whenever `original_price > 0` and `0`
otherwise; Last Bottle and Wine Spies store that value only when both
`original_price > 0` and `price > 0`, and `0` otherwise — in particular a
parsed sale price of `0` stores discount `0` even with a positive original
price. -/
theorem c2_discount_amended (pw : Option WtsoPage) (pl : Option LastBottlePage)
    (ps : Option WineSpiesPage) (d : Deal) :
    (d ∈ scrape_wtso pw →
      d.discount =
        if 0 < d.original then pyRound ((1 - d.price / d.original) * 100) else 0) ∧
    (d ∈ scrape_lastbottle pl →
      d.discount =
        if 0 < d.original ∧ 0 < d.price then pyRound ((1 - d.price / d.original) * 100)
        else 0) ∧
    (d ∈ scrape_winespies ps →
      d.discount =
        if 0 < d.original ∧ 0 < d.price then pyRound ((1 - d.price / d.original) * 100)
        else 0) := by
  refine ⟨fun hm => ?_, fun hm => ?_, fun hm => ?_⟩
  · unfold scrape_wtso at hm
    split at hm
    · cases hm
    · split at hm
      · rcases List.mem_singleton.1 hm with rfl
        exact wtso_deal_discount _ _ (by assumption)
      · cases hm
      · cases hm
  · unfold scrape_lastbottle at hm
    split at hm
    · cases hm
    · split at hm
      · rcases List.mem_singleton.1 hm with rfl
        exact lastbottle_deal_discount _ _ (by assumption)
      · cases hm
      · cases hm
  · unfold scrape_winespies at hm
    split at hm
    · cases hm
    · split at hm
      · rcases List.mem_singleton.1 hm with rfl
        exact winespies_deal_discount _ _ (by assumption)
      · cases hm
      · cases hm

example : scrape_wtso (some wtso_demo_page) = [wtso_demo_deal] := by decide
example : scrape_lastbottle (some lb_demo_page) = [lb_demo_deal] := by decide
example : scrape_winespies (some ws_demo_page) = [ws_demo_deal] := by decide

/-- C2 witness: `c2_discount_amended` instantiated on one concrete emitted
deal per extractor. -/
theorem c2_discount_amended_witness :
    wtso_demo_deal.discount =
      (if 0 < wtso_demo_deal.original
       then pyRound ((1 - wtso_demo_deal.price / wtso_demo_deal.original) * 100)
       else 0) ∧
    lb_demo_deal.discount =
      (if 0 < lb_demo_deal.original ∧ 0 < lb_demo_deal.price
       then pyRound ((1 - lb_demo_deal.price / lb_demo_deal.original) * 100)
       else 0) ∧
    ws_demo_deal.discount =
      (if 0 < ws_demo_deal.original ∧ 0 < ws_demo_deal.price
       then pyRound ((1 - ws_demo_deal.price / ws_demo_deal.original) * 100)
       else 0) :=
  ⟨(c2_discount_amended (some wtso_demo_page) none none wtso_demo_deal).1 (by decide),
   (c2_discount_amended none (some lb_demo_page) none lb_demo_deal).2.1 (by decide),
   (c2_discount_amended none none (some ws_demo_page) ws_demo_deal).2.2 (by decide)⟩

/-- C6 counterexample: WTSO (like Last Bottle) appends critic scores with no
per-publication deduplication, so an emitted deal can carry two entries for
the same resolved publication — the claim fails for those extractors. -/
theorem c6_dedup_counterexample :
    scrape_wtso (some c6page) = [c6deal] ∧
    ¬ (c6deal.scores.map ScoreEntry.source).Nodup := by
  decide

/-- A fold over a list preserves any invariant its step preserves. -/
theorem foldl_preserves {α β : Type} (P : β → Prop) (f : β → α → β)
    (hf : ∀ b a, P b → P (f b a)) :
    ∀ (l : List α) (b : β), P b → P (l.foldl f b)
  | [], _, hb => hb
  | a :: l, b, hb => foldl_preserves P f hf l (f b a) (hf b a hb)

theorem wsInv_append (st : List ScoreEntry × List Str) (v : ℤ) (src : Str)
    (hnew : src ∉ st.2) (h : wsInv st) :
    wsInv (st.1 ++ [⟨some v, src⟩], src :: st.2) := by
  obtain ⟨hnd, hmem⟩ := h
  refine ⟨?_, ?_⟩
  · rw [List.map_append]
    simp only [List.map_cons, List.map_nil]
    rw [List.nodup_append]
    refine ⟨hnd, List.nodup_singleton _, ?_⟩
    intro s hs hs'
    rcases List.mem_singleton.1 hs' with rfl
    rcases List.mem_map.1 hs with ⟨e, he, rfl⟩
    exact hnew (hmem e he)
  · intro e he
    rcases List.mem_append.1 he with he | he
    · exact List.mem_cons_of_mem _ (hmem e he)
    · rcases List.mem_singleton.1 he with rfl
      exact List.mem_cons_self _ _

theorem ws_step_inv (st : List ScoreEntry × List Str) (item : WSFeedback)
    (h : wsInv st) : wsInv (ws_step st item) := by
  unfold ws_step
  simp only []
  split
  · split
    · split
      · split
        · exact h
        · exact wsInv_append st _ _ (by assumption) h
      · exact h
    · exact h
  · exact h

theorem ws_award_step_inv (st : List ScoreEntry × List Str) (t : Str)
    (h : wsInv st) : wsInv (ws_award_step st t) := by
  unfold ws_award_step
  simp only []
  split
  · split
    · split
      · exact h
      · exact wsInv_append st _ _ (by assumption) h
    · exact h
  · exact h

/-- The publications of `ws_scores` are pairwise distinct. -/
theorem ws_scores_nodup (items : List WSFeedback) (awards : List Str) :
    ((ws_scores items awards).map ScoreEntry.source).Nodup := by
  have h1 : wsInv (items.foldl ws_step ([], [])) :=
    foldl_preserves wsInv ws_step ws_step_inv items ([], []) ⟨List.nodup_nil, by simp⟩
  unfold ws_scores
  simp only []
  split
  · exact (foldl_preserves wsInv ws_award_step ws_award_step_inv awards _ h1).1
  · exact h1.1

theorem winespies_deal_scores (page : WineSpiesPage) (d : Deal)
    (h : winespies_deal page = Except.ok (some d)) :
    d.scores = ws_scores page.feedback_items page.awards := by
  unfold winespies_deal at h
  simp only [] at h
  repeat' split at h
  all_goals first
    | (simp only [Except.ok.injEq, Option.some.injEq] at h
       subst h
       rfl)
    | cases h

/-- C6 amended: only the Wine Spies extractor deduplicates critic scores by
resolved publication per listing (first occurrence wins, via its
`seen_sources` set): every Wine Spies deal's `critic_scores` have pairwise
distinct publications.  WTSO and Last Bottle append without deduplication and
can emit several entries for one publication (see the counterexample). -/
theorem c6_dedup_amended (ps : Option WineSpiesPage) (d : Deal)
    (h : d ∈ scrape_winespies ps) :
    (d.scores.map ScoreEntry.source).Nodup := by
  unfold scrape_winespies at h
  split at h
  · cases h
  · split at h
    · rcases List.mem_singleton.1 h with rfl
      rw [winespies_deal_scores _ _ (by assumption)]
      exact ws_scores_nodup _ _
    · cases h
    · cases h

/-- C6 witness: `c6_dedup_amended` on a concrete Wine Spies page whose
feedback repeats a publication — the emitted deal keeps only the first. -/
theorem c6_dedup_amended_witness :
    ((ws_demo_deal.scores.map ScoreEntry.source)).Nodup :=
  c6_dedup_amended (some ws_demo_page) ws_demo_deal (by decide)
